import Mathlib

/-!
Verification of the `commitment` tool (src/src/main.rs).

The core is a shallow embedding of:
* `Ticket::to_ticket` (regex `^([A-Z]+-\d+)(\S*)?(?:\s+(.*))?$` on `str`),
* `capitalize_first` (which byte-slices `s[1..]` and hence can panic),
* `create_commit` (the pure commit-message composer),
* `add_and_commit` (the git transaction, with the git2 backend abstracted
  as an oracle of call outcomes).

Strings are modelled through `String.data : List Char`.  Character classes
follow the Rust regex crate restricted to the character repertoire the tool
manipulates: `[A-Z]` is exactly ASCII `A`..`Z` (as in Rust), `\d` is modelled
as ASCII `0`..`9` (Rust's `\d` is Unicode `Nd`, whose ASCII part this is),
and `\s`/`\S` are modelled by `Char.isWhitespace` (space, tab, CR, LF — the
ASCII part of Rust's Unicode `\s`).  A Rust panic is modelled as `none` in an
`Option`-valued result.
-/

/-- Character class `[A-Z]` of the ticket regex (ASCII uppercase only,
exactly as in Rust). -/
def isUpperAZ (c : Char) : Bool := 'A' ≤ c && c ≤ 'Z'

/-- Character class `\d` of the ticket regex (ASCII digits; Rust's `\d` is
Unicode `Nd`, restricted here to its ASCII part). -/
def isDigitCh (c : Char) : Bool := '0' ≤ c && c ≤ '9'

/-- Character class `\s` of the ticket regex (space, tab, CR, LF — the ASCII
part of Rust's Unicode `\s`). -/
def isWsChar (c : Char) : Bool := c.isWhitespace

/-- Remainder of `l` after the maximal leading non-whitespace run: what is
left after group 2 `(\S*)?` takes its greedy match. -/
def noWsRun (l : List Char) : List Char :=
  l.dropWhile fun c => !isWsChar c

/-- Anchored match of `^([A-Z]+-\d+)(\S*)?(?:\s+(.*))?$` (leftmost-first /
greedy, as in the Rust regex crate), returning the captures the source uses:
group 1 (the ticket) and group 3 (the remainder).  Greedy matching makes the
decomposition deterministic: group 1 takes the maximal uppercase run, a
hyphen, and the maximal digit run; group 2 `(\S*)?` silently swallows the
maximal non-whitespace run glued to the ticket; then either the input ends
(group 3 absent) or a maximal whitespace run is skipped and group 3 `(.*)`
takes the rest — which must contain no newline, since `.` does not match
`\n` and `$` only matches at the very end of the haystack, so a newline in
the tail makes the whole regex fail.

`afterHyphen l` is the input after `[A-Z]+-`; `digitsPart l` is the greedy
match of `\d+` there; `afterDigits l` what follows it; `ticketPart l` is
group 1; `tailPart l` is the candidate for group 3 (after the greedy
`(\S*)?` and `\s+`). -/
def afterHyphen (l : List Char) : List Char :=
  (l.dropWhile isUpperAZ).tail

def digitsPart (l : List Char) : List Char :=
  (afterHyphen l).takeWhile isDigitCh

def afterDigits (l : List Char) : List Char :=
  (afterHyphen l).dropWhile isDigitCh

def tailPart (l : List Char) : List Char :=
  (noWsRun (afterDigits l)).dropWhile isWsChar

def ticketPart (l : List Char) : List Char :=
  l.takeWhile isUpperAZ ++ '-' :: digitsPart l

def reMatch (l : List Char) : Option (List Char × Option (List Char)) :=
  if l.takeWhile isUpperAZ = [] then none
  else if (l.dropWhile isUpperAZ).head? = some '-' then
    if digitsPart l = [] then none
    else if noWsRun (afterDigits l) = [] then some (ticketPart l, none)
    else if '\n' ∈ tailPart l then none
    else some (ticketPart l, some (tailPart l))
  else none

/-- Model of `Ticket::to_ticket` from src/src/main.rs: empty input gives
`(none, none)`; a regex match gives `(group 1, group 3)`; a failed match
gives `(none, some input)`. -/
def to_ticket (s : String) : Option String × Option String :=
  if s.data = [] then (none, none)
  else
    match reMatch s.data with
    | some (g1, g3) => (some (String.mk g1), g3.map String.mk)
    | none => (none, some s)

/-- Model of `capitalize_first` from src/src/main.rs:
`s.chars().next().map_or(String::new(), |f| f.to_uppercase().to_string() + &s[1..])`.
The byte slice `s[1..]` panics when byte 1 is not a character boundary, i.e.
whenever the first character occupies more than one UTF-8 byte; the panic is
modelled as `none`.  On the non-panicking path the first character is a
single UTF-8 byte, hence ASCII, where Rust's `to_uppercase` agrees with
`Char.toUpper`. -/
def capitalize_first (s : String) : Option String :=
  match s.data with
  | [] => some ""
  | c :: rest => if c.utf8Size = 1 then some (String.mk (c.toUpper :: rest)) else none

/-- The two user-correctable composition failures of `create_commit`
(`bail!` with "Branch and message tickets do not match" resp.
"No commit message found"). -/
inductive CommitError where
  | ticketMismatch
  | emptyMessage
deriving DecidableEq, Repr

deriving instance DecidableEq for Except

/-- Model of `create_commit` from src/src/main.rs, arm by arm (the first arm's guard
`t1 != t2` falls through to the later arms when the tickets agree).  `none`
models a panic escaping from `capitalize_first`. -/
def create_commit (br msg : String) : Option (Except CommitError String) :=
  match to_ticket br, to_ticket msg with
  | (some t1, _), (some t2, r2) =>
    if t1 ≠ t2 then some (Except.error CommitError.ticketMismatch)
    else
      match r2 with
      | some rest => (capitalize_first rest).map (fun c => Except.ok (t2 ++ " " ++ c))
      | none => some (Except.error CommitError.emptyMessage)
  | (some t1, _), (none, mr) =>
    match mr with
    | some rest => (capitalize_first rest).map (fun c => Except.ok (t1 ++ " " ++ c))
    | none => some (Except.error CommitError.emptyMessage)
  | (none, _), (some t2, mr) =>
    match mr with
    | some rest => (capitalize_first rest).map (fun c => Except.ok (t2 ++ " " ++ c))
    | none => some (Except.error CommitError.emptyMessage)
  | (none, _), (none, mr) =>
    match mr with
    | some rest => (capitalize_first rest).map (fun c => Except.ok c)
    | none => some (Except.error CommitError.emptyMessage)

/-- Object identifier of the git backend (a `git2::Oid`), abstracted. -/
abbrev Oid := Nat

/-- A commit object as created by `repo.commit`: the data `add_and_commit`
passes to the backend that the claims talk about (message, tree, parent
set). -/
structure CommitObj where
  message : String
  tree : Oid
  parents : List Oid
deriving DecidableEq, Repr

/-- On-disk repository state mutated by `add_and_commit`: whether the index
has been written back to disk (`index.write()`), the commit objects created,
and the target of the current branch reference (HEAD); `none` models an
unborn HEAD. -/
structure RepoState where
  indexWritten : Bool
  commits : List (Oid × CommitObj)
  head : Option Oid
deriving DecidableEq, Repr

/-- Outcome oracle for the git2 calls `add_and_commit` makes, in source
order.  Each field is the result the backend returns for that call;
`Except.error` carries the backend's own error message (dropped by the
model, since the source replaces it with an `anyhow` context string). -/
structure Backend where
  getIndex : Except String Unit
  addAll : Except String Unit
  writeIndex : Except String Unit
  writeTree : Except String Oid
  findTree : Oid → Except String Unit
  signature : Except String Unit
  isEmptyRes : Except String Bool
  headTarget : Except String (Option Oid)
  findCommit : Oid → Except String Unit
  commitCreate : Except String Oid

/-- Repository state right after `index.write()` succeeded: the staging
area has been persisted to disk. -/
def withIndexWritten (s : RepoState) : RepoState :=
  { s with indexWritten := true }

/-- Model of `add_and_commit` from src/src/main.rs, step by step.  Every backend
failure is propagated as `some (Except.error ctx, state)` with the
`.context(..)` string from the source — except `repo.is_empty().unwrap()`,
whose failure panics, modelled as `none`.  `index.write()` persists the
index (state change before any commit exists); `repo.commit(Some("HEAD"),..)`
creates the commit object and repoints the current branch reference at it. -/
def add_and_commit (b : Backend) (msg : String) (s : RepoState) :
    Option (Except String Unit × RepoState) :=
  match b.getIndex with
  | .error _ => some (.error "Failed to get current index", s)
  | .ok _ =>
  match b.addAll with
  | .error _ => some (.error "Failed to run `git add`", s)
  | .ok _ =>
  match b.writeIndex with
  | .error _ => some (.error "Failed to write index from `git add`", s)
  | .ok _ =>
  match b.writeTree with
  | .error _ => some (.error "Failed to write index tree", withIndexWritten s)
  | .ok treeOid =>
  match b.findTree treeOid with
  | .error _ => some (.error "Failed to find index tree", withIndexWritten s)
  | .ok _ =>
  match b.signature with
  | .error _ => some (.error "Failed to get current signature", withIndexWritten s)
  | .ok _ =>
  match b.isEmptyRes with
  | .error _ => none
  | .ok true =>
    match b.commitCreate with
    | .error _ => some (.error "Failed to create an initial commit", withIndexWritten s)
    | .ok newOid =>
      some (.ok (),
        { indexWritten := true, commits := s.commits ++ [(newOid, ⟨msg, treeOid, []⟩)],
          head := some newOid })
  | .ok false =>
    match b.headTarget with
    | .error _ => some (.error "Failed to get HEAD", withIndexWritten s)
    | .ok none => some (.error "Failed to get HEAD target", withIndexWritten s)
    | .ok (some tip) =>
      match b.findCommit tip with
      | .error _ => some (.error "Failed to find parent commit", withIndexWritten s)
      | .ok _ =>
      match b.commitCreate with
      | .error _ => some (.error "Failed to commit", withIndexWritten s)
      | .ok newOid =>
        some (.ok (),
          { indexWritten := true, commits := s.commits ++ [(newOid, ⟨msg, treeOid, [tip]⟩)],
            head := some newOid })

-- Sanity checks against the source's #[test] fn test_to_ticket / the
-- commented-out test_to_commit expectations.
example : to_ticket "" = (none, none) := by decide
example : to_ticket "Head" = (none, some "Head") := by decide
example : to_ticket "ABC-123" = (some "ABC-123", none) := by decide
example : to_ticket "ABC-123 Tail" = (some "ABC-123", some "Tail") := by decide
example : to_ticket "ABC-123 Tail1 Tail2" = (some "ABC-123", some "Tail1 Tail2") := by decide
example : to_ticket "Head Tail1 Tail2 Tail3" = (none, some "Head Tail1 Tail2 Tail3") := by decide
example : to_ticket "ABC-123-NOPE" = (some "ABC-123", none) := by decide
example : to_ticket "ABC-123x Tail" = (some "ABC-123", some "Tail") := by decide
example : capitalize_first "abc" = some "Abc" := by decide
example : capitalize_first "Abc" = some "Abc" := by decide
example : capitalize_first "" = some "" := by decide
example : create_commit "ABC-123" "message" = some (Except.ok "ABC-123 Message") := by decide
example : create_commit "ABC-123-DEF" "Tail" = some (Except.ok "ABC-123 Tail") := by decide
example : create_commit "" "message" = some (Except.ok "Message") := by decide
example : create_commit "X" "message" = some (Except.ok "Message") := by decide
example : create_commit "INVALID" "ABC-123 Message" = some (Except.ok "ABC-123 Message") := by decide
example : create_commit "ABC-123" "DEF-456 Tail" = some (Except.error CommitError.ticketMismatch) := by decide
example : create_commit "ABC-123" "DEF-456" = some (Except.error CommitError.ticketMismatch) := by decide
example : create_commit "ABC-123" "" = some (Except.error CommitError.emptyMessage) := by decide
example : create_commit "" "" = some (Except.error CommitError.emptyMessage) := by decide

/-! ### Helper lemmas -/

theorem span_append (p : Char → Bool) (xs ys : List Char)
    (hx : ∀ x ∈ xs, p x = true) (hy : ∀ y, ys.head? = some y → p y = false) :
    (xs ++ ys).takeWhile p = xs ∧ (xs ++ ys).dropWhile p = ys := by
  induction xs with
  | nil =>
    cases ys with
    | nil => simp
    | cons y t =>
      have hpy := hy y rfl
      simp [List.takeWhile_cons, List.dropWhile_cons, hpy]
  | cons x xs ih =>
    have hpx := hx x (by simp)
    have ih2 := ih fun a ha => hx a (by simp [ha])
    simp [List.takeWhile_cons, List.dropWhile_cons, hpx, ih2.1, ih2.2]

theorem mem_of_mem_dropWhile {p : Char → Bool} {l : List Char} {a : Char}
    (h : a ∈ l.dropWhile p) : a ∈ l := by
  induction l with
  | nil => simp at h
  | cons x xs ih =>
    by_cases hp : p x = true
    · rw [List.dropWhile_cons, if_pos hp] at h
      exact List.mem_cons_of_mem _ (ih h)
    · rw [List.dropWhile_cons, if_neg hp] at h
      exact h

theorem takeWhile_head_sat {p : Char → Bool} {l : List Char} {c : Char} {cs : List Char}
    (h : l.takeWhile p = c :: cs) : p c = true := by
  induction l with
  | nil => simp at h
  | cons x xs _ =>
    rw [List.takeWhile_cons] at h
    cases hp : p x with
    | false => rw [hp] at h; simp at h
    | true =>
      rw [hp] at h
      simp only [if_true] at h
      rcases h with ⟨rfl, -⟩ | _
      exact hp

theorem char_toNat_ofNat_valid (n : Nat) (h : n.isValidChar) : (Char.ofNat n).toNat = n := by
  rw [Char.ofNat, dif_pos h]; rfl

theorem char_toUpper_eq (c : Char) :
    c.toUpper = if c.toNat ≥ 97 ∧ c.toNat ≤ 122 then Char.ofNat (c.toNat - 32) else c := rfl

theorem char_toUpper_not_lower (c : Char) :
    ¬ (c.toUpper.toNat ≥ 97 ∧ c.toUpper.toNat ≤ 122) := by
  rw [char_toUpper_eq]
  by_cases h : c.toNat ≥ 97 ∧ c.toNat ≤ 122
  · rw [if_pos h, char_toNat_ofNat_valid _ (Or.inl (by omega))]
    omega
  · rw [if_neg h]
    exact h

theorem char_toUpper_toUpper (c : Char) : c.toUpper.toUpper = c.toUpper := by
  rw [char_toUpper_eq c.toUpper, if_neg (char_toUpper_not_lower c)]

theorem isUpperAZ_toNat {c : Char} (h : isUpperAZ c = true) :
    65 ≤ c.toNat ∧ c.toNat ≤ 90 := by
  simp only [isUpperAZ, Bool.and_eq_true, decide_eq_true_eq] at h
  exact ⟨h.1, h.2⟩

theorem char_toUpper_of_upperAZ {c : Char} (h : isUpperAZ c = true) : c.toUpper = c := by
  have hb := isUpperAZ_toNat h
  rw [char_toUpper_eq, if_neg (by omega)]

theorem reMatch_some_ticket {l g1 : List Char} {g3 : Option (List Char)}
    (h : reMatch l = some (g1, g3)) :
    g1 = ticketPart l ∧ l.takeWhile isUpperAZ ≠ [] := by
  unfold reMatch at h
  split at h
  · simp at h
  next hu =>
    split at h
    · split at h
      · simp at h
      · split at h
        · rw [Option.some.injEq, Prod.mk.injEq] at h
          exact ⟨h.1.symm, hu⟩
        · split at h
          · simp at h
          · rw [Option.some.injEq, Prod.mk.injEq] at h
            exact ⟨h.1.symm, hu⟩
    · simp at h

theorem to_ticket_fst_some_head {s t : String} (h : (to_ticket s).1 = some t) :
    ∃ c cs, t.data = c :: cs ∧ isUpperAZ c = true := by
  unfold to_ticket at h
  split at h
  · simp at h
  · cases hm : reMatch s.data with
    | none => rw [hm] at h; simp at h
    | some g =>
      obtain ⟨g1, g3⟩ := g
      rw [hm] at h
      simp only [Option.some.injEq] at h
      obtain ⟨hg, hu⟩ := reMatch_some_ticket hm
      cases hc : (s.data).takeWhile isUpperAZ with
      | nil => exact absurd hc hu
      | cons c cs =>
        refine ⟨c, cs ++ '-' :: digitsPart s.data, ?_, takeWhile_head_sat hc⟩
        rw [← h]
        show g1 = c :: (cs ++ '-' :: digitsPart s.data)
        rw [hg, ticketPart, hc]
        simp

theorem to_ticket_none_some {s r : String} (h : to_ticket s = (none, some r)) :
    r = s ∧ s.data ≠ [] := by
  unfold to_ticket at h
  split at h
  · simp at h
  next hne =>
    cases hm : reMatch s.data with
    | some g =>
      obtain ⟨g1, g3⟩ := g
      rw [hm] at h
      simp at h
    | none =>
      rw [hm] at h
      simp only [Prod.mk.injEq, Option.some.injEq] at h
      exact ⟨h.2.symm, hne⟩

theorem to_ticket_mk (l : List Char) :
    to_ticket (String.mk l) =
      (if l = [] then (none, none)
       else match reMatch l with
         | some (g1, g3) => (some (String.mk g1), g3.map String.mk)
         | none => (none, some (String.mk l))) := rfl

theorem capitalize_first_some {r cr : String} (h : capitalize_first r = some cr) :
    (r.data = [] ∧ cr = "") ∨
    ∃ c rest, r.data = c :: rest ∧ c.utf8Size = 1 ∧ cr = String.mk (c.toUpper :: rest) := by
  unfold capitalize_first at h
  split at h
  next hd =>
    exact Or.inl ⟨hd, (Option.some.inj h).symm⟩
  next c rest hd =>
    split at h
    next hsz => exact Or.inr ⟨c, rest, hd, hsz, (Option.some.inj h).symm⟩
    next => simp at h

/-! ### Claims -/

/-- C1: whenever the branch and the message both parse to tickets and the
two tickets differ (case-sensitive string inequality), `create_commit`
returns the ticket-mismatch failure — never a composed message — regardless
of the remainders of either parse. -/
theorem claim_C1 (br msg t1 t2 : String)
    (h1 : (to_ticket br).1 = some t1) (h2 : (to_ticket msg).1 = some t2)
    (hne : t1 ≠ t2) :
    create_commit br msg = some (Except.error CommitError.ticketMismatch) := by
  rcases hb : to_ticket br with ⟨bt, brr⟩
  rcases hm : to_ticket msg with ⟨mt, mr⟩
  rw [hb] at h1
  rw [hm] at h2
  have hb1 : bt = some t1 := h1
  have hm1 : mt = some t2 := h2
  subst hb1
  subst hm1
  unfold create_commit
  rw [hb, hm]
  simp [hne]

/-- Witness for C1: branch `ABC-123` against message `DEF-456 Tail`. -/
theorem claim_C1_witness :
    create_commit "ABC-123" "DEF-456 Tail" = some (Except.error CommitError.ticketMismatch) :=
  claim_C1 "ABC-123" "DEF-456 Tail" "ABC-123" "DEF-456" (by decide) (by decide) (by decide)

/-- C2 counterexample: the claim also covers whitespace-only messages, but a
whitespace-only message is NOT rejected — the regex does not match `" "`, so
the whole message becomes the remainder and `create_commit "" " "` succeeds
with `" "` (capitalizing a space leaves it unchanged) instead of failing
with the empty-message error. -/
theorem claim_C2_counterexample :
    create_commit "" " " = some (Except.ok " ") ∧
    create_commit "" " " ≠ some (Except.error CommitError.emptyMessage) := by
  exact ⟨by decide, by decide⟩

/-- C2 (amended): for every branch and every message whose ticket-parse
yields NO remainder — i.e. the message is empty, or is consumed entirely as
a ticket (possibly with glued non-whitespace noise) with no trailing text —
and whose ticket, if any, does not conflict with the branch ticket,
`create_commit` fails with the empty-message error.  (The original claim
also listed whitespace-only messages, but those yield the whole message as
remainder and succeed.) -/
theorem claim_C2 (br msg : String)
    (hrem : (to_ticket msg).2 = none)
    (hcomp : ((to_ticket br).1).isSome = true → ((to_ticket msg).1).isSome = true →
      (to_ticket br).1 = (to_ticket msg).1) :
    create_commit br msg = some (Except.error CommitError.emptyMessage) := by
  rcases hb : to_ticket br with ⟨bt, brr⟩
  rcases hm : to_ticket msg with ⟨mt, mr⟩
  rw [hm] at hrem
  have hmr : mr = none := hrem
  subst hmr
  rw [hb, hm] at hcomp
  unfold create_commit
  rw [hb, hm]
  cases bt with
  | none => cases mt <;> simp
  | some t1 =>
    cases mt with
    | none => simp
    | some t2 =>
      have heq : t1 = t2 := Option.some.inj (hcomp rfl rfl)
      subst heq
      simp

/-- Witness for C2: branch `ABC-123` with the pure-ticket message
`ABC-123`, which is consumed entirely with nothing left. -/
theorem claim_C2_witness :
    (to_ticket "ABC-123").2 = none ∧
    create_commit "ABC-123" "ABC-123" = some (Except.error CommitError.emptyMessage) :=
  ⟨by decide, claim_C2 "ABC-123" "ABC-123" (by decide) (by decide)⟩

/-- C3 counterexample: the claim promises success whenever the branch has a
ticket and the message has no ticket but a remainder, yet for the message
`émsg` (no ticket, remainder `émsg`) `create_commit` panics — modelled as
`none` — because `capitalize_first` slices `s[1..]` inside the two-byte
first character. -/
theorem claim_C3_counterexample :
    (to_ticket "ABC-123").1 = some "ABC-123" ∧
    to_ticket "émsg" = (none, some "émsg") ∧
    create_commit "ABC-123" "émsg" = none := by
  exact ⟨by decide, by decide, by decide⟩

/-- C3 (amended): if the branch parses to a ticket, the message parses to no
ticket but a remainder, and capitalizing the remainder does not panic
(its first character is a single UTF-8 byte), then `create_commit` succeeds
with the branch ticket, a single space, and the capitalized remainder.
The original claim omitted the no-panic proviso. -/
theorem claim_C3 (br msg t r cr : String)
    (hb : (to_ticket br).1 = some t)
    (hm : to_ticket msg = (none, some r))
    (hcap : capitalize_first r = some cr) :
    create_commit br msg = some (Except.ok (t ++ " " ++ cr)) := by
  rcases hb2 : to_ticket br with ⟨bt, brr⟩
  rw [hb2] at hb
  have hb1 : bt = some t := hb
  subst hb1
  unfold create_commit
  rw [hb2, hm]
  show (capitalize_first r).map (fun c => Except.ok (t ++ " " ++ c)) =
    some (Except.ok (t ++ " " ++ cr))
  rw [hcap]
  rfl

/-- Witness for C3: `create_commit "ABC-123" "message"` composes
`ABC-123 Message`, as in the spec example. -/
theorem claim_C3_witness :
    create_commit "ABC-123" "message" = some (Except.ok "ABC-123 Message") :=
  claim_C3 "ABC-123" "message" "ABC-123" "message" "Message"
    (by decide) (by decide) (by decide)

/-- C4 counterexample: `"ABC-123 a\nb"` has the prefix `ABC-123` matching
`[A-Z]+-\d+`, yet `to_ticket` extracts NO ticket: the full regex is anchored
with `$`, `.` does not match a newline, and `\s+` cannot absorb the `\n`
that sits after `a`, so the whole match fails and the entire input becomes
the remainder. -/
theorem claim_C4_counterexample :
    "ABC-123 a\nb".data =
      ['A', 'B', 'C'] ++ '-' :: (['1', '2', '3'] ++ [' ', 'a', '\n', 'b']) ∧
    to_ticket "ABC-123 a\nb" = (none, some "ABC-123 a\nb") := by
  exact ⟨by decide, by decide⟩

/-- C4 (amended): for every input of shape `U ++ "-" ++ D ++ rest` with `U`
a non-empty uppercase run, `D` a non-empty digit run not extendable into
`rest`, and `rest` free of newlines, `to_ticket` extracts exactly the
ticket `U ++ "-" ++ D`, whatever (non-digit-leading, newline-free) noise
follows — in particular any glued non-whitespace noise.  The original claim
had no newline restriction, but a newline after the first whitespace run
makes the anchored regex fail altogether. -/
theorem claim_C4 (U D rest : List Char)
    (hU : U ≠ []) (hUall : ∀ c ∈ U, isUpperAZ c = true)
    (hD : D ≠ []) (hDall : ∀ c ∈ D, isDigitCh c = true)
    (hDmax : ∀ c, rest.head? = some c → isDigitCh c = false)
    (hNoNl : '\n' ∉ rest) :
    (to_ticket (String.mk (U ++ '-' :: (D ++ rest)))).1 =
      some (String.mk (U ++ '-' :: D)) := by
  have hUhy : ∀ y, (('-' :: (D ++ rest)) : List Char).head? = some y → isUpperAZ y = false := by
    intro y hy
    have h1 : some '-' = some y := hy
    have h2 : y = '-' := (Option.some.inj h1).symm
    subst h2
    decide
  obtain ⟨htakeU, hdropU⟩ := span_append isUpperAZ U ('-' :: (D ++ rest)) hUall hUhy
  obtain ⟨htakeD, hdropD⟩ := span_append isDigitCh D rest hDall hDmax
  have hAH : afterHyphen (U ++ '-' :: (D ++ rest)) = D ++ rest := by
    unfold afterHyphen
    rw [hdropU]
    rfl
  have hDig : digitsPart (U ++ '-' :: (D ++ rest)) = D := by
    unfold digitsPart
    rw [hAH, htakeD]
  have hAD : afterDigits (U ++ '-' :: (D ++ rest)) = rest := by
    unfold afterDigits
    rw [hAH, hdropD]
  have hTick : ticketPart (U ++ '-' :: (D ++ rest)) = U ++ '-' :: D := by
    unfold ticketPart
    rw [htakeU, hDig]
  have hre : ∃ g3, reMatch (U ++ '-' :: (D ++ rest)) = some (U ++ '-' :: D, g3) := by
    unfold reMatch
    rw [htakeU, if_neg hU, hdropU,
      if_pos (show (('-' :: (D ++ rest)) : List Char).head? = some '-' from rfl),
      hDig, if_neg hD]
    by_cases h4 : noWsRun rest = []
    · rw [hAD, if_pos h4]
      exact ⟨none, by rw [hTick]⟩
    · rw [hAD, if_neg h4]
      have htl : '\n' ∉ tailPart (U ++ '-' :: (D ++ rest)) := by
        intro hmem
        unfold tailPart at hmem
        rw [hAD] at hmem
        have h1 := mem_of_mem_dropWhile hmem
        unfold noWsRun at h1
        exact hNoNl (mem_of_mem_dropWhile h1)
      rw [if_neg htl]
      exact ⟨some (tailPart (U ++ '-' :: (D ++ rest))), by rw [hTick]⟩
  obtain ⟨g3, hre⟩ := hre
  have hnil : U ++ '-' :: (D ++ rest) ≠ [] := by
    intro hnil
    have := List.append_eq_nil.mp hnil
    simp at this
  rw [to_ticket_mk, if_neg hnil, hre]

/-- Witness for C4 at `ABC-123-NOPE`: the glued noise `-NOPE` is discarded
and the ticket is exactly `ABC-123`. -/
theorem claim_C4_witness :
    (to_ticket (String.mk
      (['A', 'B', 'C'] ++ '-' :: (['1', '2', '3'] ++ ['-', 'N', 'O', 'P', 'E'])))).1 =
      some (String.mk (['A', 'B', 'C'] ++ '-' :: ['1', '2', '3'])) :=
  claim_C4 ['A', 'B', 'C'] ['1', '2', '3'] ['-', 'N', 'O', 'P', 'E']
    (by decide) (by decide) (by decide) (by decide) (by decide) (by decide)

theorem string_data_append (a b : String) : (a ++ b).data = a.data ++ b.data := rfl

theorem ok_ticket_arm {t cr s : String} {c : Char} {cs : List Char}
    (ht : t.data = c :: cs) (hup : isUpperAZ c = true)
    (hs : t ++ " " ++ cr = s) :
    s ≠ "" ∧ ∀ c0, s.data.head? = some c0 → c0.toUpper = c0 := by
  subst hs
  have hd : (t ++ " " ++ cr).data = c :: (cs ++ ' ' :: cr.data) := by
    rw [string_data_append, string_data_append, ht]
    simp
  constructor
  · intro e
    rw [e] at hd
    exact absurd hd (by simp [String.data])
  · intro c0 hc0
    rw [hd] at hc0
    have hcc : c = c0 := Option.some.inj hc0
    subst hcc
    exact char_toUpper_of_upperAZ hup

/-- C5 counterexample: `create_commit "" "1abc"` succeeds with `1abc`; the
source capitalizes the first CHARACTER (the digit `1`, unchanged by
uppercasing), so the first alphabetic character of the produced message,
`a`, is still lower-case — contradicting the claim that the first
alphabetic character is upper-cased. -/
theorem claim_C5_counterexample :
    create_commit "" "1abc" = some (Except.ok "1abc") ∧
    "1abc".data.find? Char.isAlpha = some 'a' ∧
    'a'.isUpper = false := by
  exact ⟨by decide, by decide, by decide⟩

/-- C5 (amended): whenever `create_commit` succeeds, the produced message is
non-empty and its FIRST character (alphabetic or not) is a fixed point of
upper-casing.  The original claim said "first alphabetic character", which
fails when the message starts with a non-alphabetic character such as a
digit. -/
theorem claim_C5 (br msg s : String)
    (h : create_commit br msg = some (Except.ok s)) :
    s ≠ "" ∧ ∀ c, s.data.head? = some c → c.toUpper = c := by
  unfold create_commit at h
  split at h
  · -- arm 1: both tickets present
    rename_i t1 brr t2 r2 hbeq hmeq
    split at h
    · simp at h
    · split at h
      · rename_i rest
        cases hcap : capitalize_first rest with
        | none => rw [hcap] at h; simp at h
        | some cr =>
          rw [hcap] at h
          simp only [Option.map_some', Option.some.injEq, Except.ok.injEq] at h
          have hts : (to_ticket msg).1 = some t2 := by rw [hmeq]
          obtain ⟨c, cs, hcd, hcu⟩ := to_ticket_fst_some_head hts
          exact ok_ticket_arm hcd hcu h
      · simp at h
  · -- arm 2: branch ticket, message without ticket
    rename_i t1 brr mr hbeq hmeq
    split at h
    · rename_i rest
      cases hcap : capitalize_first rest with
      | none => rw [hcap] at h; simp at h
      | some cr =>
        rw [hcap] at h
        simp only [Option.map_some', Option.some.injEq, Except.ok.injEq] at h
        have hts : (to_ticket br).1 = some t1 := by rw [hbeq]
        obtain ⟨c, cs, hcd, hcu⟩ := to_ticket_fst_some_head hts
        exact ok_ticket_arm hcd hcu h
    · simp at h
  · -- arm 3: message ticket only
    rename_i brr t2 mr hbeq hmeq
    split at h
    · rename_i rest
      cases hcap : capitalize_first rest with
      | none => rw [hcap] at h; simp at h
      | some cr =>
        rw [hcap] at h
        simp only [Option.map_some', Option.some.injEq, Except.ok.injEq] at h
        have hts : (to_ticket msg).1 = some t2 := by rw [hmeq]
        obtain ⟨c, cs, hcd, hcu⟩ := to_ticket_fst_some_head hts
        exact ok_ticket_arm hcd hcu h
    · simp at h
  · -- arm 4: no tickets at all
    rename_i brr mr hbeq hmeq
    split at h
    · rename_i rest
      cases hcap : capitalize_first rest with
      | none => rw [hcap] at h; simp at h
      | some cr =>
        rw [hcap] at h
        simp only [Option.map_some', Option.some.injEq, Except.ok.injEq] at h
        have hrm : to_ticket msg = (none, some rest) := hmeq
        obtain ⟨hrs, hne⟩ := to_ticket_none_some hrm
        rcases capitalize_first_some hcap with ⟨hnil, -⟩ | ⟨c, rest2, hcd, hsz, hcr⟩
        · rw [hrs] at hnil
          exact absurd hnil hne
        · subst hcr
          subst h
          refine ⟨?_, ?_⟩
          · intro e
            have : (String.mk (c.toUpper :: rest2)).data = "".data := by rw [e]
            simp [String.data] at this
          · intro c0 hc0
            have : c.toUpper = c0 := Option.some.inj hc0
            subst this
            exact char_toUpper_toUpper c
    · simp at h

/-- Witness for C5: `create_commit "" "x"` succeeds with `X`, which is
non-empty and starts with an uppercasing fixed point. -/
theorem claim_C5_witness :
    ("X" : String) ≠ "" ∧ ∀ c, ("X" : String).data.head? = some c → c.toUpper = c :=
  claim_C5 "" "x" "X" (by decide)

/-- C6: on the success path of the commit transaction the parent linkage is
as specified — when the backend reports the repository empty (no commits
yet) the new commit is created with zero parents (a root commit); when it
is non-empty and HEAD resolves to a tip, the new commit's sole parent is
that tip — and in both cases the current branch reference (HEAD) is
repointed at the new commit. -/
theorem claim_C6 (b : Backend) (msg : String) (s : RepoState) (t newOid : Oid)
    (h1 : b.getIndex = .ok ()) (h2 : b.addAll = .ok ()) (h3 : b.writeIndex = .ok ())
    (h4 : b.writeTree = .ok t) (h5 : b.findTree t = .ok ()) (h6 : b.signature = .ok ())
    (h7 : b.commitCreate = .ok newOid) :
    (b.isEmptyRes = .ok true →
      add_and_commit b msg s = some (.ok (),
        { indexWritten := true, commits := s.commits ++ [(newOid, ⟨msg, t, []⟩)],
          head := some newOid })) ∧
    (∀ tip, b.isEmptyRes = .ok false → b.headTarget = .ok (some tip) →
      b.findCommit tip = .ok () →
      add_and_commit b msg s = some (.ok (),
        { indexWritten := true, commits := s.commits ++ [(newOid, ⟨msg, t, [tip]⟩)],
          head := some newOid })) := by
  constructor
  · intro hE
    simp only [add_and_commit, h1, h2, h3, h4, h5, h6, hE, h7]
  · intro tip hE hH hF
    simp only [add_and_commit, h1, h2, h3, h4, h5, h6, hE, hH, hF, h7]

/-- Witness for C6: a non-empty repository whose tip is commit 3; the new
commit 9 gets sole parent 3 and HEAD moves to 9. -/
theorem claim_C6_witness :
    add_and_commit
      ⟨.ok (), .ok (), .ok (), .ok 7, fun _ => .ok (), .ok (), .ok false, .ok (some 3),
       fun _ => .ok (), .ok 9⟩ "m" ⟨false, [], some 3⟩ =
      some (.ok (), ⟨true, [(9, ⟨"m", 7, [3]⟩)], some 9⟩) :=
  (claim_C6 _ "m" ⟨false, [], some 3⟩ 7 9 rfl rfl rfl rfl rfl rfl rfl).2 3 rfl rfl rfl

/-- C7 counterexample: with a backend whose tree write fails after staging
succeeded, the transaction fails BUT the index write has already been
persisted: the resulting repository state (`indexWritten = true`) differs
from the initial one, contradicting "no repository state modified by the
transaction is left behind; the steps before the failing one had no side
effects".  (No commit object is created, though.) -/
theorem claim_C7_counterexample :
    add_and_commit
      ⟨.ok (), .ok (), .ok (), .error "disk full", fun _ => .ok (), .ok (), .ok true,
       .ok none, fun _ => .ok (), .ok 0⟩ "m" ⟨false, [], none⟩ =
      some (.error "Failed to write index tree", ⟨true, [], none⟩) ∧
    (⟨true, [], none⟩ : RepoState) ≠ (⟨false, [], none⟩ : RepoState) := by
  exact ⟨by decide, by decide⟩

/-- C7 (amended): on every failure path of the transaction — all failures
precede a successful commit creation — no commit object is added and the
branch reference is untouched, so no partial commit is ever left behind.
The original claim's stronger "no repository state modified / prior steps
had no side effects" part is false: a failure after staging leaves the
persisted index write behind. -/
theorem claim_C7 (b : Backend) (msg : String) (s s' : RepoState) (e : String)
    (h : add_and_commit b msg s = some (Except.error e, s')) :
    s'.commits = s.commits ∧ s'.head = s.head := by
  unfold add_and_commit at h
  repeat' split at h
  all_goals
    first
    | exact Option.noConfusion h
    | exact Except.noConfusion (congrArg Prod.fst (Option.some.inj h))
    | (have hs : _ = s' := congrArg Prod.snd (Option.some.inj h)
       subst hs
       exact ⟨rfl, rfl⟩)

/-- Witness for C7: the tree-write failure leaves commits and HEAD of the
initial state untouched. -/
theorem claim_C7_witness :
    ((⟨true, [], none⟩ : RepoState).commits = (⟨false, [], none⟩ : RepoState).commits ∧
     (⟨true, [], none⟩ : RepoState).head = (⟨false, [], none⟩ : RepoState).head) :=
  claim_C7
    ⟨.ok (), .ok (), .ok (), .error "disk full", fun _ => .ok (), .ok (), .ok true,
     .ok none, fun _ => .ok (), .ok 0⟩ "m" ⟨false, [], none⟩ ⟨true, [], none⟩
    "Failed to write index tree" (by decide)

/-- C8: `capitalize_first` is not total over Unicode: on `"éxample"`, whose
first character occupies two UTF-8 bytes, the byte slice `s[1..]` is not on a
character boundary and the function panics (modelled `none`); consequently
`create_commit` panics instead of returning a `Result` for such a message. -/
theorem claim_C8 :
    ('é' : Char).utf8Size = 2 ∧
    capitalize_first "éxample" = none ∧
    create_commit "" "éxample" = none := by
  exact ⟨by decide, by decide, by decide⟩

/-- C9: when every step up to the signature succeeds but the repository
emptiness query `repo.is_empty()` itself returns an error, the transaction
panics — `.unwrap()` on an `Err`, modelled as `none` — instead of surfacing
a descriptive error value as every other backend failure in the same
function does. -/
theorem claim_C9 (b : Backend) (msg : String) (s : RepoState) (t : Oid) (e : String)
    (h1 : b.getIndex = .ok ()) (h2 : b.addAll = .ok ()) (h3 : b.writeIndex = .ok ())
    (h4 : b.writeTree = .ok t) (h5 : b.findTree t = .ok ()) (h6 : b.signature = .ok ())
    (hE : b.isEmptyRes = .error e) :
    add_and_commit b msg s = none := by
  simp only [add_and_commit, h1, h2, h3, h4, h5, h6, hE]

/-- Witness for C9: a backend failing only the emptiness query makes the
transaction panic. -/
theorem claim_C9_witness :
    add_and_commit
      ⟨.ok (), .ok (), .ok (), .ok 7, fun _ => .ok (), .ok (), .error "broken",
       .ok none, fun _ => .ok (), .ok 0⟩ "m" ⟨false, [], none⟩ = none :=
  claim_C9 _ "m" ⟨false, [], none⟩ 7 "broken" rfl rfl rfl rfl rfl rfl rfl

theorem isWsChar_not_digit {c : Char} (h : isWsChar c = true) : isDigitCh c = false := by
  have hc : ((c = ' ' ∨ c = '\t') ∨ c = '\x0d') ∨ c = '\n' := by
    simpa [isWsChar, Char.isWhitespace] using h
  rcases hc with ((rfl | rfl) | rfl) | rfl <;> decide

theorem dropWhile_all {p : Char → Bool} {l : List Char} (h : ∀ c ∈ l, p c = true) :
    l.dropWhile p = [] := by
  induction l with
  | nil => rfl
  | cons x xs ih =>
    rw [List.dropWhile_cons, if_pos (h x (by simp))]
    exact ih fun c hc => h c (by simp [hc])

theorem string_append_empty (s : String) : s ++ "" = s := by
  obtain ⟨l⟩ := s
  show String.mk (l ++ []) = String.mk l
  rw [List.append_nil]

/-- C10: a message that is a ticket followed only by trailing whitespace
parses to the ticket together with remainder `some ""` — `\s+` eats the
whitespace and group 3 `(.*)` matches the empty string — NOT to no
remainder; hence composing it with a branch carrying no conflicting ticket
(here the empty branch) succeeds with the ticket followed by a trailing
space instead of failing with the empty-message error. -/
theorem claim_C10 (U D W : List Char)
    (hU : U ≠ []) (hUall : ∀ c ∈ U, isUpperAZ c = true)
    (hD : D ≠ []) (hDall : ∀ c ∈ D, isDigitCh c = true)
    (hW : W ≠ []) (hWall : ∀ c ∈ W, isWsChar c = true) :
    to_ticket (String.mk (U ++ '-' :: (D ++ W))) =
      (some (String.mk (U ++ '-' :: D)), some "") ∧
    create_commit "" (String.mk (U ++ '-' :: (D ++ W))) =
      some (Except.ok (String.mk (U ++ '-' :: D) ++ " ")) := by
  obtain ⟨w, W', rfl⟩ : ∃ w W', W = w :: W' := by
    cases W with
    | nil => exact absurd rfl hW
    | cons w W' => exact ⟨w, W', rfl⟩
  have hwws : isWsChar w = true := hWall w (by simp)
  have hUhy : ∀ y, (('-' :: (D ++ (w :: W'))) : List Char).head? = some y →
      isUpperAZ y = false := by
    intro y hy
    have h2 : y = '-' := (Option.some.inj hy).symm
    subst h2
    decide
  have hDhy : ∀ y, ((w :: W') : List Char).head? = some y → isDigitCh y = false := by
    intro y hy
    have h2 : y = w := (Option.some.inj hy).symm
    subst h2
    exact isWsChar_not_digit hwws
  obtain ⟨htakeU, hdropU⟩ := span_append isUpperAZ U ('-' :: (D ++ (w :: W'))) hUall hUhy
  obtain ⟨htakeD, hdropD⟩ := span_append isDigitCh D (w :: W') hDall hDhy
  have hAH : afterHyphen (U ++ '-' :: (D ++ (w :: W'))) = D ++ (w :: W') := by
    unfold afterHyphen
    rw [hdropU]
    rfl
  have hDig : digitsPart (U ++ '-' :: (D ++ (w :: W'))) = D := by
    unfold digitsPart
    rw [hAH, htakeD]
  have hAD : afterDigits (U ++ '-' :: (D ++ (w :: W'))) = w :: W' := by
    unfold afterDigits
    rw [hAH, hdropD]
  have hTick : ticketPart (U ++ '-' :: (D ++ (w :: W'))) = U ++ '-' :: D := by
    unfold ticketPart
    rw [htakeU, hDig]
  have hnw : noWsRun (w :: W') = w :: W' := by
    unfold noWsRun
    rw [List.dropWhile_cons, if_neg (by simp [hwws])]
  have htp : tailPart (U ++ '-' :: (D ++ (w :: W'))) = [] := by
    unfold tailPart
    rw [hAD, hnw]
    exact dropWhile_all hWall
  have hnil : U ++ '-' :: (D ++ (w :: W')) ≠ [] := by
    intro hnil
    have := List.append_eq_nil.mp hnil
    simp at this
  have hre : reMatch (U ++ '-' :: (D ++ (w :: W'))) = some (U ++ '-' :: D, some []) := by
    unfold reMatch
    rw [htakeU, if_neg hU, hdropU,
      if_pos (show (('-' :: (D ++ (w :: W'))) : List Char).head? = some '-' from rfl),
      hDig, if_neg hD, hAD, hnw,
      if_neg (show ¬((w :: W' : List Char) = []) by simp),
      htp,
      if_neg (show ¬('\n' ∈ ([] : List Char)) by simp),
      hTick]
  have h1 : to_ticket (String.mk (U ++ '-' :: (D ++ (w :: W')))) =
      (some (String.mk (U ++ '-' :: D)), some "") := by
    rw [to_ticket_mk, if_neg hnil, hre]
    rfl
  refine ⟨h1, ?_⟩
  unfold create_commit
  rw [h1]
  show (capitalize_first "").map
      (fun c => Except.ok (String.mk (U ++ '-' :: D) ++ " " ++ c)) =
    some (Except.ok (String.mk (U ++ '-' :: D) ++ " "))
  rw [show capitalize_first "" = some "" from rfl]
  show some (Except.ok (String.mk (U ++ '-' :: D) ++ " " ++ "")) =
    some (Except.ok (String.mk (U ++ '-' :: D) ++ " "))
  rw [string_append_empty]

/-- Witness for C10 at the message `"ABC-123 "`: ticket `ABC-123`, remainder
`""`, and the composed message keeps the trailing space. -/
theorem claim_C10_witness :
    to_ticket (String.mk (['A', 'B', 'C'] ++ '-' :: (['1', '2', '3'] ++ [' ']))) =
      (some (String.mk (['A', 'B', 'C'] ++ '-' :: ['1', '2', '3'])), some "") ∧
    create_commit "" (String.mk (['A', 'B', 'C'] ++ '-' :: (['1', '2', '3'] ++ [' ']))) =
      some (Except.ok (String.mk (['A', 'B', 'C'] ++ '-' :: ['1', '2', '3']) ++ " ")) :=
  claim_C10 ['A', 'B', 'C'] ['1', '2', '3'] [' ']
    (by decide) (by decide) (by decide) (by decide) (by decide) (by decide)
